import Mathlib

/- Shallow embedding of `HubSpot_to_Excel_SmartUpdate_1.2.py`.

The program has two pieces of logic worth verifying:

  * `HubSpotExporter.merge_contact_data` (lines 194-238): reconciles freshly
    fetched contact records against a previously persisted spreadsheet table,
    preserving user-added ("custom") columns keyed by the `Contact ID` column.
  * `HubSpotExporter.get_contacts_from_list` (lines 104-174): paginates the
    v1 list-membership endpoint, handling HTTP error codes and transport
    exceptions, and normalizes the raw v1 contacts to v3 format.

Python dicts with string keys and values are modelled as association lists,
pandas DataFrames as a list of column labels plus rows of cells aligned
positionally with the labels, and `datetime.now()` timestamps as opaque string
parameters. -/

namespace HubSpot

/-- A v3-normalized contact record, `{"id": ..., "properties": {...}}`, as
produced by the conversion at the end of `get_contacts_from_list` and consumed
by `update_excel`. -/
structure Contact where
  id : String
  properties : List (String × String)
deriving DecidableEq, Repr

/-- Python `props.get(key, "")` on a dict modelled as an association list. -/
def getProp (props : List (String × String)) (key : String) : String :=
  match props.find? (fun kv => kv.1 == key) with
  | some kv => kv.2
  | none => ""

/-- The fixed key order of the `contact_info` dict built in `update_excel`
(lines 280-290), which becomes the column order of `pd.DataFrame(contact_data)`. -/
def hubspotCols : List String :=
  ["Contact ID", "Email", "First Name", "Last Name", "Phone", "Company",
   "Lifecycle Stage", "Lead Status", "Last Updated"]

/-- The row `contact_info` built in `update_excel` (lines 280-290) from one
contact, with `now` the `datetime.now().strftime(...)` stamp of line 289. -/
def contactInfo (now : String) (c : Contact) : List String :=
  [c.id, getProp c.properties "email", getProp c.properties "firstname",
   getProp c.properties "lastname", getProp c.properties "phone",
   getProp c.properties "company", getProp c.properties "lifecyclestage",
   getProp c.properties "hs_lead_status", now]

/-- A pandas DataFrame of string cells: column labels plus rows whose cells
align positionally with the labels. -/
structure Table where
  cols : List String
  rows : List (List String)
deriving DecidableEq, Repr

/-- Index of the first column labelled `k` (pandas label lookup). -/
def colIdx : List String → String → Option Nat
  | [], _ => none
  | c :: cs, k => if c = k then some 0 else (colIdx cs k).map (· + 1)

/-- The cell of `row` under column label `k` of a table with columns `cols`
(an absent label or a short row reads as the empty string). -/
def cellAt (cols row : List String) (k : String) : String :=
  match colIdx cols k with
  | some i => row.getD i ""
  | none => ""

/-- The cell of `row` under column label `k` of table `t`. -/
def Table.cell (t : Table) (row : List String) (k : String) : String :=
  cellAt t.cols row k

/-- Pandas `df.empty`: true when the frame has no rows or no columns. -/
def Table.isEmptyDF (t : Table) : Bool := t.rows.isEmpty || t.cols.isEmpty

/-- `pd.DataFrame(contact_data)` for `contact_data` built by `update_excel`:
an empty list gives an empty frame with no columns; otherwise the columns are
the fixed `contact_info` keys in order, one row per contact. -/
def newTable (now : String) (cs : List Contact) : Table :=
  if cs.isEmpty then ⟨[], []⟩ else ⟨hubspotCols, cs.map (contactInfo now)⟩

/-- Pandas `df[k] = v` for a scalar `v`: overwrite the column in place when the
label exists, otherwise append it on the right (line 224). -/
def Table.setCol (t : Table) (k : String) (v : String) : Table :=
  match colIdx t.cols k with
  | some i => ⟨t.cols, t.rows.map (fun r => r.set i v)⟩
  | none => ⟨t.cols ++ [k], t.rows.map (fun r => r ++ [v])⟩

/-- Pandas `df[k] = df['Contact ID'].map(f)` (line 228): the column's cell in
each row is `f` applied to that row's `Contact ID` cell. -/
def Table.mapIdCol (t : Table) (k : String) (f : String → String) : Table :=
  match colIdx t.cols k with
  | some i => ⟨t.cols, t.rows.map (fun r => r.set i (f (t.cell r "Contact ID")))⟩
  | none => ⟨t.cols ++ [k], t.rows.map (fun r => r ++ [f (t.cell r "Contact ID")])⟩

/-- The `Contact ID` cells of the rows of a table (the index that line 221
builds the custom-data lookup over). -/
def Table.ids (t : Table) : List String :=
  t.rows.map (fun r => t.cell r "Contact ID")

/-- Line 221 followed by line 228's access:
`existing_df[['Contact ID'] + custom_columns].set_index('Contact ID').to_dict('index')`,
then `custom_data.get(i, {}).get(col, '')`: the value of column `col` in the
existing row whose `Contact ID` is `i`, or `""` when no such row exists. -/
def Table.customLookup (t : Table) (i : String) (col : String) : String :=
  match t.rows.find? (fun r => t.cell r "Contact ID" == i) with
  | some r => t.cell r col
  | none => ""

/-- `HubSpotExporter.merge_contact_data` (lines 194-238). `t1` is the
timestamp already stamped on every `contact_data` row by `update_excel`
(line 289); `t2` is the fresh `datetime.now()` of line 224. The result is
`none` exactly when pandas `to_dict('index')` at line 221 raises `ValueError`
because the existing table's `Contact ID` index is not unique. -/
def merge_contact_data (newContacts : List Contact) (existing : Option Table)
    (t1 t2 : String) : Option Table :=
  match existing with
  | none => some (newTable t1 newContacts)
  | some ex =>
    if ex.isEmptyDF then some (newTable t1 newContacts)
    else
      let new_df := newTable t1 newContacts
      if "Contact ID" ∉ ex.cols then some new_df
      else
        let hubspot_columns := new_df.cols
        let custom_columns := ex.cols.filter (fun c => decide (c ∉ hubspot_columns))
        if new_df.rows.isEmpty then some ex
        else
          if ex.ids.Nodup then
            let stamped := new_df.setCol "Last Updated" t2
            some (custom_columns.foldl
              (fun acc col => acc.mapIdCol col (fun i => ex.customLookup i col))
              stamped)
          else none

/-- The custom columns identified at line 210 when the new frame is non-empty:
columns of the existing table absent from the fetched column set. -/
def customCols (ex : Table) : List String :=
  ex.cols.filter (fun c => decide (c ∉ hubspotCols))

/-- One output row of the non-degenerate merge path: the fetched fields
re-stamped with the merge timestamp, then the custom-column values looked up
by the row's identifier. -/
def mergedRow (ex : Table) (customs : List String) (t2 : String) (c : Contact) :
    List String :=
  contactInfo t2 c ++ customs.map (fun col => ex.customLookup c.id col)

/-- A value in a raw v1 contact's property map: either a `{"value": ...}`
object or a bare value (the `isinstance(value, dict)` test at line 167). -/
inductive PropVal where
  | obj (value : String)
  | bare (value : String)
deriving DecidableEq, Repr

/-- A raw v1 contact from a page body: the optional numeric `vid` and the
property map. -/
structure RawContact where
  vid : Option Nat
  properties : List (String × PropVal)
deriving DecidableEq, Repr

/-- `str(contact.get("vid", ""))` (line 160). -/
def vidStr : Option Nat → String
  | some n => toString n
  | none => ""

/-- The v3-format conversion of lines 156-172: keep the stringified id and
flatten each dict-valued property to its `"value"` field. -/
def toV3 (c : RawContact) : Contact :=
  ⟨vidStr c.vid, c.properties.map (fun kv =>
    (kv.1, match kv.2 with | .obj v => v | .bare v => v))⟩

/-- One successful (HTTP 200) page body:
`{"contacts": [...], "has-more": b, "vid-offset": n}`. -/
structure Page where
  contacts : List RawContact
  hasMore : Bool
  vidOffset : Nat
deriving DecidableEq, Repr

/-- One server response to a page request: HTTP 200 with a page body, a
non-200 status code, or a raised transport exception. -/
inductive Resp where
  | ok (p : Page)
  | httpErr (code : Nat)
  | exn
deriving DecidableEq, Repr

/-- The pagination loop of `get_contacts_from_list` (lines 112-152) run
against a scripted server that answers the n-th request with the n-th entry
of `resps`. The second component of the result records the `vidOffset`
parameter sent with each request, in request order. A 401 (line 126), a 404
(line 129) and any other non-200 status (line 133) all `return []`,
discarding the accumulated contacts; an exception (line 150) breaks out of
the loop, keeping them. `none` means the loop asked for more pages than the
scenario scripts. -/
def fetchLoop : List Resp → Nat → List RawContact → List Nat →
    Option (List RawContact × List Nat)
  | [], _, _, _ => none
  | r :: rest, offset, contacts, reqs =>
    let reqs' := reqs ++ [offset]
    match r with
    | .httpErr code =>
      if code = 401 then some ([], reqs')
      else if code = 404 then some ([], reqs')
      else some ([], reqs')
    | .exn => some (contacts, reqs')
    | .ok p =>
      let contacts' := contacts ++ p.contacts
      if p.hasMore then fetchLoop rest p.vidOffset contacts' reqs'
      else some (contacts', reqs')

/-- `HubSpotExporter.get_contacts_from_list` (lines 104-174) against a
scripted server: run the pagination loop from offset 0 with no accumulated
contacts, then apply the v3 conversion to whatever the loop returned. -/
def get_contacts_from_list (resps : List Resp) :
    Option (List Contact × List Nat) :=
  (fetchLoop resps 0 [] []).map (fun res => (res.1.map toV3, res.2))

/-- The `vidOffset` parameters the loop sends when it consumes a list of
all-`has-more` pages starting from offset `off`: `off` first, then each
page's returned cursor. -/
def reqSeq : Nat → List Page → List Nat
  | _, [] => []
  | off, p :: ps => off :: reqSeq p.vidOffset ps

/-- The offset cursor held by the loop after consuming a list of
all-`has-more` pages starting from offset `off`. -/
def endOff : Nat → List Page → Nat
  | off, [] => off
  | _, p :: ps => endOff p.vidOffset ps

/-- Concrete sample contact for exercising the merge on explicit inputs. -/
def cW : Contact := ⟨"1", [("email", "new@x.com")]⟩

/-- Concrete sample existing table: one custom column `Owner Notes` and one
row keyed by identifier `"1"`. -/
def exW : Table := ⟨["Contact ID", "Email", "Owner Notes"], [["1", "old@x.com", "VIP"]]⟩

/-- The table `merge_contact_data [cW] (some exW) "T1" "T2"` produces. -/
def mergedW : Table :=
  ⟨hubspotCols ++ ["Owner Notes"],
   [["1", "new@x.com", "", "", "", "", "", "", "T2", "VIP"]]⟩

/-- Concrete sample existing table lacking the `Contact ID` column. -/
def exNoId : Table := ⟨["Email"], [["x@y.z"]]⟩

/-- Concrete sample pages for exercising the pagination loop. -/
def pageW1 : Page := ⟨[⟨some 1, [("email", PropVal.obj "a@x.com")]⟩], true, 100⟩

/-- Second sample page, cursor 200. -/
def pageW2 : Page := ⟨[⟨some 2, [("firstname", PropVal.bare "Bea")]⟩], true, 200⟩

/-- Final sample page, `has-more` false. -/
def pageW3 : Page := ⟨[⟨some 3, []⟩], false, 0⟩

theorem colIdx_append_left {xs : List String} {k : String} {i : Nat}
    (h : colIdx xs k = some i) (ys : List String) :
    colIdx (xs ++ ys) k = some i := by
  induction xs generalizing i with
  | nil => simp [colIdx] at h
  | cons x xs ih =>
    rw [List.cons_append]
    rw [colIdx] at h ⊢
    by_cases hx : x = k
    · rw [if_pos hx] at h ⊢; exact h
    · rw [if_neg hx] at h ⊢
      cases hxs : colIdx xs k with
      | none => rw [hxs] at h; simp at h
      | some j =>
        rw [hxs] at h
        rw [ih hxs]
        exact h

theorem colIdx_eq_none {xs : List String} {k : String} (h : k ∉ xs) :
    colIdx xs k = none := by
  induction xs with
  | nil => rfl
  | cons x xs ih =>
    rw [colIdx]
    rw [List.mem_cons, not_or] at h
    rw [if_neg (fun he => h.1 he.symm), ih h.2]
    rfl

theorem colIdx_append_of_not_mem {xs : List String} {k : String} (h : k ∉ xs)
    (ys : List String) :
    colIdx (xs ++ ys) k = (colIdx ys k).map (· + xs.length) := by
  induction xs with
  | nil => cases hys : colIdx ys k <;> simp [hys]
  | cons x xs ih =>
    rw [List.mem_cons, not_or] at h
    rw [List.cons_append, colIdx, if_neg (fun he => h.1 he.symm), ih h.2]
    cases hys : colIdx ys k with
    | none => simp
    | some j =>
      simp only [hys, Option.map_some', List.length_cons, Option.some.injEq]
      omega

theorem colIdx_lt {xs : List String} {k : String} {i : Nat}
    (h : colIdx xs k = some i) : i < xs.length := by
  induction xs generalizing i with
  | nil => simp [colIdx] at h
  | cons x xs ih =>
    rw [colIdx] at h
    split at h
    · simp at h
      simp [List.length_cons]
      omega
    · cases hxs : colIdx xs k with
      | none => rw [hxs] at h; simp at h
      | some j =>
        rw [hxs] at h
        simp at h
        have := ih hxs
        simp [List.length_cons]
        omega

theorem colIdx_of_mem {xs : List String} {k : String} (h : k ∈ xs) :
    ∃ i, colIdx xs k = some i := by
  induction xs with
  | nil => simp at h
  | cons x xs ih =>
    rw [colIdx]
    by_cases hx : x = k
    · exact ⟨0, if_pos hx⟩
    · rw [if_neg hx]
      rcases List.mem_cons.mp h with he | hm
      · exact absurd he.symm hx
      · obtain ⟨j, hj⟩ := ih hm
        exact ⟨j + 1, by rw [hj]; rfl⟩

theorem colIdx_map_getD {α : Type} {xs : List String} {k : String} {i : Nat}
    (h : colIdx xs k = some i) (g : String → α) (d : α) :
    (xs.map g).getD i d = g k := by
  induction xs generalizing i with
  | nil => simp [colIdx] at h
  | cons x xs ih =>
    rw [colIdx] at h
    split at h
    · rename_i hx
      simp at h
      subst hx
      simp [← h]
    · cases hxs : colIdx xs k with
      | none => rw [hxs] at h; simp at h
      | some j =>
        rw [hxs] at h
        simp at h
        subst h
        simpa using ih hxs

theorem cellAt_append_left {cols row : List String} (hlen : row.length = cols.length)
    {k : String} (hk : k ∈ cols) (cols2 row2 : List String) :
    cellAt (cols ++ cols2) (row ++ row2) k = cellAt cols row k := by
  obtain ⟨i, hi⟩ := colIdx_of_mem hk
  rw [cellAt, cellAt, colIdx_append_left hi, hi]
  exact List.getD_append _ _ _ _ (hlen ▸ colIdx_lt hi)

theorem cellAt_append_right {cols row : List String} (hlen : row.length = cols.length)
    {k : String} (hk : k ∉ cols) (cols2 row2 : List String) :
    cellAt (cols ++ cols2) (row ++ row2) k = cellAt cols2 row2 k := by
  rw [cellAt, cellAt, colIdx_append_of_not_mem hk]
  cases h2 : colIdx cols2 k with
  | none => rfl
  | some j =>
    simp only [Option.map_some']
    rw [List.getD_append_right _ _ _ _ (by omega)]
    congr 1
    omega

theorem contactInfo_length (t : String) (c : Contact) :
    (contactInfo t c).length = hubspotCols.length := rfl

theorem mem_hubspotCols_CID : "Contact ID" ∈ hubspotCols := by decide

theorem colIdx_hubspot_LU : colIdx hubspotCols "Last Updated" = some 8 := rfl

theorem cellAt_contactInfo_id (t : String) (c : Contact) :
    cellAt hubspotCols (contactInfo t c) "Contact ID" = c.id := rfl

theorem cellAt_contactInfo_LU (t : String) (c : Contact) :
    cellAt hubspotCols (contactInfo t c) "Last Updated" = t := rfl

theorem contactInfo_set_LU (t t2 : String) (c : Contact) :
    (contactInfo t c).set 8 t2 = contactInfo t2 c := rfl

theorem cellAt_contactInfo_agree {k : String} (hk : k ∈ hubspotCols)
    (hne : k ≠ "Last Updated") (t t' : String) (c : Contact) :
    cellAt hubspotCols (contactInfo t c) k = cellAt hubspotCols (contactInfo t' c) k := by
  simp only [hubspotCols, List.mem_cons, List.not_mem_nil, or_false] at hk
  rcases hk with h | h | h | h | h | h | h | h | h
  all_goals first
    | exact absurd h hne
    | (subst h; rfl)

theorem find?_eq_of_nodup_key {α : Type} (g : α → String) (l : List α)
    (hnd : (l.map g).Nodup) {r : α} (hr : r ∈ l) {i : String} (hi : g r = i) :
    l.find? (fun x => g x == i) = some r := by
  induction l with
  | nil => simp at hr
  | cons a tl ih =>
    rw [List.map_cons, List.nodup_cons] at hnd
    rcases List.mem_cons.mp hr with rfl | hr'
    · exact List.find?_cons_of_pos _ (by simp [hi])
    · have hne : g a ≠ i := fun he =>
        hnd.1 (by rw [he, ← hi]; exact List.mem_map_of_mem g hr')
      rw [List.find?_cons_of_neg _ (by simpa using hne)]
      exact ih hnd.2 hr'

theorem ids_contactRows (customs : List String) (t : String) (l : List Contact)
    (vals : Contact → List String) :
    Table.ids ⟨hubspotCols ++ customs, l.map (fun c => contactInfo t c ++ vals c)⟩
      = l.map Contact.id := by
  rw [Table.ids, List.map_map]
  apply List.map_congr_left
  intro c _
  show cellAt (hubspotCols ++ customs) (contactInfo t c ++ vals c) "Contact ID" = c.id
  rw [cellAt_append_left (contactInfo_length t c) mem_hubspotCols_CID]
  exact cellAt_contactInfo_id t c

theorem customCols_not_mem {ex : Table} {col : String} (h : col ∈ customCols ex) :
    col ∉ hubspotCols := by
  have := List.of_mem_filter h
  simpa using this

theorem customCols_sub {ex : Table} {col : String} (h : col ∈ customCols ex) :
    col ∈ ex.cols :=
  List.mem_of_mem_filter h

theorem customCols_mem {ex : Table} {col : String} (h1 : col ∈ ex.cols)
    (h2 : col ∉ hubspotCols) : col ∈ customCols ex := by
  rw [customCols, List.mem_filter]
  exact ⟨h1, by simpa using h2⟩

theorem customCols_nodup {ex : Table} (h : ex.cols.Nodup) : (customCols ex).Nodup :=
  h.filter _

theorem hubspot_filter_out :
    hubspotCols.filter (fun c => decide (c ∉ hubspotCols)) = [] := by decide

theorem filter_append_customs (customs : List String)
    (h : ∀ col ∈ customs, col ∉ hubspotCols) :
    (hubspotCols ++ customs).filter (fun c => decide (c ∉ hubspotCols)) = customs := by
  rw [List.filter_append, hubspot_filter_out, List.nil_append]
  apply List.filter_eq_self.mpr
  intro a ha
  simpa using h a ha

theorem cell_mk (cols : List String) (rows : List (List String)) (row : List String)
    (k : String) :
    Table.cell ⟨cols, rows⟩ row k = cellAt cols row k := rfl

theorem cellAt_CID (done v : List String) (t : String) (c : Contact) :
    cellAt (hubspotCols ++ done) (contactInfo t c ++ v) "Contact ID" = c.id := by
  rw [cellAt_append_left (contactInfo_length t c) mem_hubspotCols_CID]
  exact cellAt_contactInfo_id t c

theorem newTable_ne (t1 : String) {l : List Contact} (hne : l ≠ []) :
    newTable t1 l = ⟨hubspotCols, l.map (contactInfo t1)⟩ := by
  cases l with
  | nil => exact absurd rfl hne
  | cons a tl => rfl

theorem foldl_mapIdCol (g : String → String → String) (cs : List Contact) (t2 : String)
    (todo : List String) :
    ∀ (done : List String) (vals : Contact → List String),
      (∀ c, (vals c).length = done.length) →
      (∀ col ∈ todo, col ∉ hubspotCols ++ done) →
      todo.Nodup →
      List.foldl (fun (acc : Table) (col : String) => acc.mapIdCol col (fun i => g i col))
          (Table.mk (hubspotCols ++ done) (cs.map (fun c => contactInfo t2 c ++ vals c)))
          todo
      = Table.mk (hubspotCols ++ (done ++ todo))
          (cs.map (fun c => contactInfo t2 c ++ (vals c ++ todo.map (fun col => g c.id col)))) := by
  induction todo with
  | nil =>
    intro done vals _ _ _
    simp
  | cons col todo ih =>
    intro done vals hlen hnm hnd
    rw [List.foldl_cons]
    have hcol : col ∉ hubspotCols ++ done := hnm col (List.mem_cons_self col todo)
    have hnone : colIdx (hubspotCols ++ done) col = none := colIdx_eq_none hcol
    have hstep :
        Table.mapIdCol
            (Table.mk (hubspotCols ++ done) (cs.map (fun c => contactInfo t2 c ++ vals c)))
            col (fun i => g i col)
          = Table.mk (hubspotCols ++ (done ++ [col]))
              (cs.map (fun c => contactInfo t2 c ++ (vals c ++ [g c.id col]))) := by
      simp only [Table.mapIdCol, hnone]
      rw [Table.mk.injEq]
      refine ⟨List.append_assoc _ _ _, ?_⟩
      rw [List.map_map]
      apply List.map_congr_left
      intro c _
      simp only [Function.comp_apply]
      rw [cell_mk, cellAt_CID, List.append_assoc]
    rw [hstep]
    rw [ih (done ++ [col]) (fun c => vals c ++ [g c.id col])
      (fun c => by simp [hlen c])
      (by
        intro c' hc'
        have h1 := hnm c' (List.mem_cons_of_mem col hc')
        have h2 : c' ≠ col := fun he => (List.nodup_cons.mp hnd).1 (he ▸ hc')
        intro hmem
        rcases List.mem_append.mp hmem with h | h
        · exact h1 (List.mem_append.mpr (Or.inl h))
        · rcases List.mem_append.mp h with h | h
          · exact h1 (List.mem_append.mpr (Or.inr h))
          · exact h2 (List.mem_singleton.mp h))
      ((List.nodup_cons.mp hnd).2)]
    rw [Table.mk.injEq]
    refine ⟨by simp, ?_⟩
    apply List.map_congr_left
    intro c _
    simp [List.append_assoc]

theorem merge_main (newContacts : List Contact) (ex : Table) (t1 t2 : String)
    (hne : newContacts ≠ []) (hCID : "Contact ID" ∈ ex.cols)
    (hexne : ex.isEmptyDF = false) (hcols : ex.cols.Nodup) (hids : ex.ids.Nodup) :
    merge_contact_data newContacts (some ex) t1 t2 =
      some ⟨hubspotCols ++ customCols ex,
        newContacts.map (mergedRow ex (customCols ex) t2)⟩ := by
  have hnt := newTable_ne t1 hne
  have hmapne : (newContacts.map (contactInfo t1)).isEmpty = false := by
    cases newContacts with
    | nil => exact absurd rfl hne
    | cons a tl => rfl
  have hstamp : Table.setCol ⟨hubspotCols, newContacts.map (contactInfo t1)⟩
      "Last Updated" t2
      = Table.mk hubspotCols (newContacts.map (contactInfo t2)) := by
    simp only [Table.setCol, colIdx_hubspot_LU]
    rw [Table.mk.injEq]
    refine ⟨rfl, ?_⟩
    rw [List.map_map]
    apply List.map_congr_left
    intro c _
    exact contactInfo_set_LU t1 t2 c
  have hfold := foldl_mapIdCol (Table.customLookup ex) newContacts t2
    (ex.cols.filter (fun c => decide (c ∉ hubspotCols))) [] (fun _ => [])
    (fun c => rfl)
    (by
      intro col hc
      rw [List.append_nil]
      exact customCols_not_mem hc)
    (customCols_nodup hcols)
  simp only [List.append_nil, List.nil_append] at hfold
  simp only [merge_contact_data, hnt]
  rw [if_neg (by rw [hexne]; exact Bool.false_ne_true)]
  rw [if_neg (not_not_intro hCID)]
  rw [if_neg (by simp only [hmapne]; exact Bool.false_ne_true)]
  rw [if_pos hids]
  rw [hstamp, hfold]
  rfl

theorem isEmptyDF_false_of {ex : Table} (hr : ex.rows ≠ []) (hc : ex.cols ≠ []) :
    ex.isEmptyDF = false := by
  obtain ⟨a, as, h1⟩ := List.exists_cons_of_ne_nil hr
  obtain ⟨b, bs, h2⟩ := List.exists_cons_of_ne_nil hc
  rw [Table.isEmptyDF, h1, h2]
  rfl

theorem merge_empty_fetch (ex : Table) (t1 t2 : String)
    (hexne : ex.isEmptyDF = false) (hCID : "Contact ID" ∈ ex.cols) :
    merge_contact_data [] (some ex) t1 t2 = some ex := by
  simp only [merge_contact_data]
  rw [if_neg (by rw [hexne]; exact Bool.false_ne_true)]
  rw [if_neg (not_not_intro hCID)]
  rw [if_pos (show (newTable t1 []).rows.isEmpty = true from rfl)]

theorem forall₂_self {α : Type} (R : α → α → Prop) (l : List α)
    (h : ∀ x ∈ l, R x x) : List.Forall₂ R l l := by
  induction l with
  | nil => exact List.Forall₂.nil
  | cons a tl ih =>
    exact List.Forall₂.cons (h a (List.mem_cons_self a tl))
      (ih (fun x hx => h x (List.mem_cons_of_mem a hx)))

theorem forall₂_map_map {α β γ : Type} (R : β → γ → Prop) (f : α → β) (g : α → γ)
    (l : List α) (h : ∀ c ∈ l, R (f c) (g c)) :
    List.Forall₂ R (l.map f) (l.map g) := by
  induction l with
  | nil => exact List.Forall₂.nil
  | cons a tl ih =>
    exact List.Forall₂.cons (h a (List.mem_cons_self a tl))
      (ih (fun x hx => h x (List.mem_cons_of_mem a hx)))

theorem cellAt_cons_ne {col col' : String} (h : col ≠ col') (a : String)
    (v cs : List String) :
    cellAt (col :: cs) (a :: v) col' = cellAt cs v col' := by
  rw [cellAt, cellAt, colIdx, if_neg h]
  cases hc : colIdx cs col' with
  | none => rfl
  | some j => simp

theorem cellAt_cons_self (col : String) (a : String) (v cs : List String) :
    cellAt (col :: cs) (a :: v) col = a := by
  rw [cellAt, colIdx, if_pos rfl]
  rfl

theorem map_cellAt_self (customs : List String) (hnd : customs.Nodup) :
    ∀ (v : List String), v.length = customs.length →
      customs.map (fun col => cellAt customs v col) = v := by
  induction customs with
  | nil =>
    intro v hv
    rw [List.length_nil, List.length_eq_zero] at hv
    rw [hv]
    rfl
  | cons col cs ih =>
    intro v hv
    obtain ⟨a, v', rfl⟩ : ∃ a v', v = a :: v' := by
      cases v with
      | nil => simp at hv
      | cons a v' => exact ⟨a, v', rfl⟩
    rw [List.map_cons, cellAt_cons_self]
    rw [List.nodup_cons] at hnd
    have : cs.map (fun col' => cellAt (col :: cs) (a :: v') col') =
        cs.map (fun col' => cellAt cs v' col') := by
      apply List.map_congr_left
      intro col' hcol'
      exact cellAt_cons_ne (fun he => hnd.1 (by rw [he]; exact hcol')) a v' cs
    rw [this, ih hnd.2 v' (by simpa using hv)]

theorem agree_rows_except_LU (customs : List String)
    (hcnf : ∀ col ∈ customs, col ∉ hubspotCols) (t t' : String) (c : Contact)
    (v : List String) :
    ∀ col ∈ hubspotCols ++ customs, col ≠ "Last Updated" →
      cellAt (hubspotCols ++ customs) (contactInfo t c ++ v) col
        = cellAt (hubspotCols ++ customs) (contactInfo t' c ++ v) col := by
  intro col hcol hne
  rcases List.mem_append.mp hcol with h | h
  · rw [cellAt_append_left (contactInfo_length t c) h,
      cellAt_append_left (contactInfo_length t' c) h]
    exact cellAt_contactInfo_agree h hne t t' c
  · rw [cellAt_append_right (contactInfo_length t c) (hcnf col h),
      cellAt_append_right (contactInfo_length t' c) (hcnf col h)]

theorem cellAt_mergedRow_custom {customs : List String} {cc : String}
    (hcc : cc ∈ customs) (hccnf : cc ∉ hubspotCols) (t : String) (c : Contact)
    (f : String → String) :
    cellAt (hubspotCols ++ customs) (contactInfo t c ++ customs.map f) cc = f cc := by
  rw [cellAt_append_right (contactInfo_length t c) hccnf]
  obtain ⟨j, hj⟩ := colIdx_of_mem hcc
  rw [cellAt, hj]
  exact colIdx_map_getD hj f ""

theorem merge_self_shape (newContacts : List Contact) (customs : List String)
    (vals : Contact → List String) (t t1' t2' : String)
    (hne : newContacts ≠ []) (hnew : (newContacts.map Contact.id).Nodup)
    (hcnd : customs.Nodup) (hcnf : ∀ col ∈ customs, col ∉ hubspotCols)
    (hvlen : ∀ c, (vals c).length = customs.length) :
    merge_contact_data newContacts
        (some (Table.mk (hubspotCols ++ customs)
          (newContacts.map (fun c => contactInfo t c ++ vals c)))) t1' t2'
      = some (Table.mk (hubspotCols ++ customs)
          (newContacts.map (fun c => contactInfo t2' c ++ vals c))) := by
  set O : Table := Table.mk (hubspotCols ++ customs)
    (newContacts.map (fun c => contactInfo t c ++ vals c)) with hO
  have hexne : O.isEmptyDF = false := by
    apply isEmptyDF_false_of
    · rw [hO]
      show newContacts.map (fun c => contactInfo t c ++ vals c) ≠ []
      simpa using hne
    · rw [hO]
      show hubspotCols ++ customs ≠ []
      simp [hubspotCols]
  have hCID : "Contact ID" ∈ O.cols := by
    rw [hO]
    exact List.mem_append.mpr (Or.inl mem_hubspotCols_CID)
  have hcolsnd : O.cols.Nodup := by
    rw [hO]
    show (hubspotCols ++ customs).Nodup
    rw [List.nodup_append]
    exact ⟨by decide, hcnd, fun a ha hb => hcnf a hb ha⟩
  have hidseq : O.ids = newContacts.map Contact.id :=
    ids_contactRows customs t newContacts vals
  have hids : O.ids.Nodup := by rw [hidseq]; exact hnew
  rw [merge_main newContacts O t1' t2' hne hCID hexne hcolsnd hids]
  have hcust : customCols O = customs := by
    rw [hO]
    show (hubspotCols ++ customs).filter (fun c => decide (c ∉ hubspotCols)) = customs
    exact filter_append_customs customs hcnf
  rw [hcust]
  congr 1
  rw [Table.mk.injEq]
  refine ⟨rfl, ?_⟩
  apply List.map_congr_left
  intro c hc
  show contactInfo t2' c ++ customs.map (fun col => O.customLookup c.id col)
      = contactInfo t2' c ++ vals c
  congr 1
  have hfind : O.rows.find? (fun row => O.cell row "Contact ID" == c.id)
      = some (contactInfo t c ++ vals c) := by
    have hmem : contactInfo t c ++ vals c ∈ O.rows := by
      rw [hO]
      exact List.mem_map_of_mem _ hc
    have hkey : O.cell (contactInfo t c ++ vals c) "Contact ID" = c.id := by
      rw [hO]
      exact cellAt_CID customs (vals c) t c
    exact find?_eq_of_nodup_key (fun row => O.cell row "Contact ID") O.rows hids hmem hkey
  have hlook : ∀ col ∈ customs, O.customLookup c.id col = cellAt customs (vals c) col := by
    intro col hcol
    rw [Table.customLookup, hfind]
    show O.cell (contactInfo t c ++ vals c) col = _
    rw [hO]
    exact cellAt_append_right (contactInfo_length t c) (hcnf col hcol) customs (vals c)
  rw [List.map_congr_left hlook]
  exact map_cellAt_self customs hcnd (vals c) (hvlen c)

theorem remerge_of_newTable (newContacts : List Contact) (t1 t1' t2' : String)
    (hnew : (newContacts.map Contact.id).Nodup) (O : Table)
    (hO : O = newTable t1 newContacts) :
    ∃ O', merge_contact_data newContacts (some O) t1' t2' = some O' ∧
      O'.cols = O.cols ∧
      List.Forall₂ (fun r r' => ∀ col ∈ O.cols, col ≠ "Last Updated" →
        O.cell r col = O'.cell r' col) O.rows O'.rows := by
  by_cases hne : newContacts = []
  · subst hne
    subst hO
    exact ⟨newTable t1' [], rfl, rfl, List.Forall₂.nil⟩
  · have hOnt : O = Table.mk hubspotCols (newContacts.map (contactInfo t1)) := by
      rw [hO, newTable_ne t1 hne]
    have hms := merge_self_shape newContacts [] (fun _ => []) t1 t1' t2' hne hnew
      List.nodup_nil (by simp) (fun c => rfl)
    simp only [List.append_nil] at hms
    refine ⟨Table.mk hubspotCols (newContacts.map (contactInfo t2')), ?_, ?_, ?_⟩
    · rw [hOnt]
      exact hms
    · rw [hOnt]
    · rw [hOnt]
      exact forall₂_map_map _ _ _ _
        (fun c _ col hcol hne' => cellAt_contactInfo_agree hcol hne' t1 t2' c)

theorem fetchLoop_ok_all :
    ∀ (pre : List Page), (∀ p ∈ pre, p.hasMore = true) →
    ∀ (rest : List Resp) (off : Nat) (acc : List RawContact) (reqs : List Nat),
      fetchLoop (pre.map Resp.ok ++ rest) off acc reqs
        = fetchLoop rest (endOff off pre) (acc ++ (pre.map Page.contacts).flatten)
            (reqs ++ reqSeq off pre) := by
  intro pre
  induction pre with
  | nil =>
    intro _ rest off acc reqs
    simp [endOff, reqSeq]
  | cons p ps ih =>
    intro hpre rest off acc reqs
    have hp : p.hasMore = true := hpre p (List.mem_cons_self p ps)
    rw [List.map_cons, List.cons_append]
    simp only [fetchLoop, hp, eq_self_iff_true, if_true]
    rw [ih (fun q hq => hpre q (List.mem_cons_of_mem p hq)) rest p.vidOffset
      (acc ++ p.contacts) (reqs ++ [off])]
    rw [endOff, reqSeq]
    simp [List.append_assoc]

theorem reqSeq_append_endOff : ∀ (ps : List Page) (off : Nat),
    reqSeq off ps ++ [endOff off ps] = off :: ps.map Page.vidOffset := by
  intro ps
  induction ps with
  | nil => intro off; rfl
  | cons p ps ih =>
    intro off
    rw [reqSeq, endOff, List.cons_append, ih p.vidOffset]
    rfl

theorem fetchLoop_last (p : Page) (hlast : p.hasMore = false) (rest : List Resp)
    (off : Nat) (acc : List RawContact) (reqs : List Nat) :
    fetchLoop (Resp.ok p :: rest) off acc reqs = some (acc ++ p.contacts, reqs ++ [off]) := by
  simp only [fetchLoop]
  rw [if_neg (by rw [hlast]; exact Bool.false_ne_true)]

theorem fetchLoop_httpErr (code : Nat) (rest : List Resp) (off : Nat)
    (acc : List RawContact) (reqs : List Nat) :
    fetchLoop (Resp.httpErr code :: rest) off acc reqs = some ([], reqs ++ [off]) := by
  simp only [fetchLoop]
  by_cases h1 : code = 401
  · rw [if_pos h1]
  · rw [if_neg h1]
    by_cases h2 : code = 404
    · rw [if_pos h2]
    · rw [if_neg h2]

theorem fetchLoop_exn (rest : List Resp) (off : Nat) (acc : List RawContact)
    (reqs : List Nat) :
    fetchLoop (Resp.exn :: rest) off acc reqs = some (acc, reqs ++ [off]) := rfl

/-- C4: for every finite sequence of successful page responses in which every
page but the last carries `has-more` true and the last carries it false,
`get_contacts_from_list` terminates and returns exactly the concatenation of
all pages' contact records in page order (v3-normalized), having sent the
first request with offset 0 and each later request with the `vid-offset`
cursor returned by the previous page's response. -/
theorem C4_pagination_concatenation (pre : List Page) (last : Page)
    (hpre : ∀ p ∈ pre, p.hasMore = true) (hlast : last.hasMore = false) :
    get_contacts_from_list ((pre ++ [last]).map Resp.ok)
      = some ((((pre ++ [last]).map Page.contacts).flatten).map toV3,
          0 :: pre.map Page.vidOffset) := by
  rw [get_contacts_from_list, List.map_append]
  rw [fetchLoop_ok_all pre hpre ([last].map Resp.ok) 0 [] []]
  simp only [List.map_cons, List.map_nil]
  rw [fetchLoop_last last hlast]
  simp only [Option.map_some', List.nil_append]
  rw [reqSeq_append_endOff]
  simp [List.map_append, List.flatten_append]

/-- C4 witness: three pages with `has-more` true, true, false and cursors
100, 200 yield the three records in order, requested at offsets 0, 100, 200. -/
theorem C4_pagination_concatenation_witness :
    get_contacts_from_list (([pageW1, pageW2] ++ [pageW3]).map Resp.ok)
      = some ([⟨"1", [("email", "a@x.com")]⟩, ⟨"2", [("firstname", "Bea")]⟩, ⟨"3", []⟩],
          [0, 100, 200]) := by
  have h := C4_pagination_concatenation [pageW1, pageW2] pageW3 (by decide) (by decide)
  exact h.trans (by decide)

/-- C6: a 401 (authentication failure) or 404 (list not found) response on any
page request makes `get_contacts_from_list` return an empty record collection
for the fetch instead of raising; accumulated contacts are discarded. -/
theorem C6_auth_or_notfound_empty (pre : List Page) (code : Nat) (rest : List Resp)
    (hpre : ∀ p ∈ pre, p.hasMore = true) (_hcode : code = 401 ∨ code = 404) :
    get_contacts_from_list (pre.map Resp.ok ++ Resp.httpErr code :: rest)
      = some ([], 0 :: pre.map Page.vidOffset) := by
  rw [get_contacts_from_list, fetchLoop_ok_all pre hpre (Resp.httpErr code :: rest) 0 [] []]
  rw [fetchLoop_httpErr]
  simp only [Option.map_some', List.map_nil, List.nil_append]
  rw [reqSeq_append_endOff]

/-- C6 witness: a 401 on the very first page request yields an empty result. -/
theorem C6_auth_or_notfound_empty_witness :
    get_contacts_from_list [Resp.httpErr 401] = some ([], [0]) :=
  C6_auth_or_notfound_empty [] 401 [] (by simp) (Or.inl rfl)

/-- C7: a transport-level exception while requesting a page after zero or more
successful `has-more` pages does not raise: the loop aborts and the records
collected from the completed pages are returned. -/
theorem C7_exception_returns_collected (pre : List Page) (rest : List Resp)
    (hpre : ∀ p ∈ pre, p.hasMore = true) :
    get_contacts_from_list (pre.map Resp.ok ++ Resp.exn :: rest)
      = some (((pre.map Page.contacts).flatten).map toV3, 0 :: pre.map Page.vidOffset) := by
  rw [get_contacts_from_list, fetchLoop_ok_all pre hpre (Resp.exn :: rest) 0 [] []]
  rw [fetchLoop_exn]
  simp only [Option.map_some', List.nil_append]
  rw [reqSeq_append_endOff]

/-- C7 witness: one successful page followed by a network exception returns
that page's record. -/
theorem C7_exception_returns_collected_witness :
    get_contacts_from_list ([pageW1].map Resp.ok ++ Resp.exn :: [])
      = some ([⟨"1", [("email", "a@x.com")]⟩], [0, 100]) := by
  have h := C7_exception_returns_collected [pageW1] [] (by decide)
  exact h.trans (by decide)

theorem newTable_rows_isEmpty_false (t1 : String) {l : List Contact} (hne : l ≠ []) :
    (newTable t1 l).rows.isEmpty = false := by
  cases l with
  | nil => exact absurd rfl hne
  | cons a tl => rfl

/-- C8: when the existing table is absent (`None`) or empty, the merge output
is exactly the fetched records converted to table rows, each row carrying the
timestamp stamp `t1` in its `Last Updated` cell (the stamp `update_excel`
applied when building the rows), and no custom-column lookup is applied. -/
theorem C8_no_existing_no_merge (newContacts : List Contact) (existing : Option Table)
    (t1 t2 : String)
    (h : existing = none ∨ ∃ ex, existing = some ex ∧ ex.isEmptyDF = true) :
    merge_contact_data newContacts existing t1 t2 = some (newTable t1 newContacts) ∧
    (newTable t1 newContacts).rows = newContacts.map (contactInfo t1) ∧
    ∀ c ∈ newContacts,
      (newTable t1 newContacts).cell (contactInfo t1 c) "Last Updated" = t1 := by
  refine ⟨?_, ?_, ?_⟩
  · rcases h with rfl | ⟨ex, rfl, hex⟩
    · rfl
    · simp only [merge_contact_data]
      rw [if_pos hex]
  · cases newContacts with
    | nil => rfl
    | cons a l => rfl
  · intro c hc
    have hne : newContacts ≠ [] := by
      intro he
      rw [he] at hc
      exact List.not_mem_nil c hc
    rw [newTable_ne t1 hne]
    exact cellAt_contactInfo_LU t1 c

/-- C8 witness: merging one record against an absent table. -/
theorem C8_no_existing_no_merge_witness :
    merge_contact_data [cW] none "T1" "T2" = some (newTable "T1" [cW]) ∧
    (newTable "T1" [cW]).rows = [cW].map (contactInfo "T1") ∧
    ∀ c ∈ [cW], (newTable "T1" [cW]).cell (contactInfo "T1" c) "Last Updated" = "T1" :=
  C8_no_existing_no_merge [cW] none "T1" "T2" (Or.inl rfl)

/-- C10: when the fetched record list is empty and the existing table is
non-empty with a `Contact ID` column, the merge returns the existing table
unchanged rather than an empty table. -/
theorem C10_empty_fetch_keeps_existing (ex : Table) (t1 t2 : String)
    (hexne : ex.isEmptyDF = false) (hCID : "Contact ID" ∈ ex.cols) :
    merge_contact_data [] (some ex) t1 t2 = some ex :=
  merge_empty_fetch ex t1 t2 hexne hCID

/-- C10 witness: an empty fetch against a one-row table keeps the table. -/
theorem C10_empty_fetch_keeps_existing_witness :
    merge_contact_data [] (some exW) "T1" "T2" = some exW :=
  C10_empty_fetch_keeps_existing exW "T1" "T2" rfl (by decide)

/-- C3: a non-empty existing table that lacks the `Contact ID` column skips
the merge entirely: the new records converted to a table are returned
unchanged, with no custom columns appended and no values altered. -/
theorem C3_no_id_column_returns_new (newContacts : List Contact) (ex : Table)
    (t1 t2 : String) (hexne : ex.isEmptyDF = false)
    (hno : "Contact ID" ∉ ex.cols) :
    merge_contact_data newContacts (some ex) t1 t2 = some (newTable t1 newContacts) := by
  simp only [merge_contact_data]
  rw [if_neg (by rw [hexne]; exact Bool.false_ne_true)]
  rw [if_pos hno]

/-- C3 witness: an existing table with only an `Email` column is ignored. -/
theorem C3_no_id_column_returns_new_witness :
    merge_contact_data [cW] (some exNoId) "T1" "T2" = some (newTable "T1" [cW]) :=
  C3_no_id_column_returns_new [cW] exNoId "T1" "T2" rfl (by decide)

/-- C9: the merged output's column order is the fetched columns in their fixed
order ending with `Last Updated`, followed by the existing table's custom
columns in their original relative order. -/
theorem C9_column_order (newContacts : List Contact) (ex : Table) (t1 t2 : String)
    (hne : newContacts ≠ []) (hCID : "Contact ID" ∈ ex.cols)
    (hexne : ex.isEmptyDF = false) (hcols : ex.cols.Nodup) (hids : ex.ids.Nodup) :
    ∃ out, merge_contact_data newContacts (some ex) t1 t2 = some out ∧
      out.cols = ["Contact ID", "Email", "First Name", "Last Name", "Phone",
          "Company", "Lifecycle Stage", "Lead Status", "Last Updated"]
        ++ ex.cols.filter (fun c => decide (c ∉ hubspotCols)) :=
  ⟨_, merge_main newContacts ex t1 t2 hne hCID hexne hcols hids, rfl⟩

/-- C9 witness: the sample merge puts `Owner Notes` after `Last Updated`. -/
theorem C9_column_order_witness :
    ∃ out, merge_contact_data [cW] (some exW) "T1" "T2" = some out ∧
      out.cols = ["Contact ID", "Email", "First Name", "Last Name", "Phone",
          "Company", "Lifecycle Stage", "Lead Status", "Last Updated"]
        ++ exW.cols.filter (fun c => decide (c ∉ hubspotCols)) :=
  C9_column_order [cW] exW "T1" "T2" (by decide) (by decide) rfl (by decide) (by decide)

/-- C1: for a non-empty fetch merged against an existing table with a
`Contact ID` column (well-formed: distinct column labels and distinct
identifiers), every output row whose identifier `i` also occurs in the
existing table holds, in each custom column (a column of the existing table
absent from the fetched columns), exactly the existing table's value for `i`
in that column. -/
theorem C1_custom_columns_preserved (newContacts : List Contact) (ex : Table)
    (t1 t2 i cc : String) (r : List String)
    (hne : newContacts ≠ []) (hCID : "Contact ID" ∈ ex.cols)
    (hcols : ex.cols.Nodup) (hids : ex.ids.Nodup)
    (hcc : cc ∈ ex.cols) (hccnf : cc ∉ hubspotCols)
    (hr : r ∈ ex.rows) (hri : ex.cell r "Contact ID" = i)
    (hin : ∃ c ∈ newContacts, c.id = i) :
    ∃ out, merge_contact_data newContacts (some ex) t1 t2 = some out ∧
      (∃ orow ∈ out.rows, out.cell orow "Contact ID" = i) ∧
      (∀ orow ∈ out.rows, out.cell orow "Contact ID" = i →
        out.cell orow cc = ex.cell r cc) := by
  have hexne : ex.isEmptyDF = false := isEmptyDF_false_of
    (fun he => by rw [he] at hr; exact List.not_mem_nil r hr)
    (fun he => by rw [he] at hCID; exact List.not_mem_nil _ hCID)
  refine ⟨_, merge_main newContacts ex t1 t2 hne hCID hexne hcols hids, ?_, ?_⟩
  · obtain ⟨c, hc, hcid⟩ := hin
    refine ⟨mergedRow ex (customCols ex) t2 c, List.mem_map_of_mem _ hc, ?_⟩
    show cellAt (hubspotCols ++ customCols ex)
      (contactInfo t2 c ++ (customCols ex).map (fun col => ex.customLookup c.id col))
      "Contact ID" = i
    rw [cellAt_CID]
    exact hcid
  · intro orow hmem hid
    obtain ⟨c, hc, rfl⟩ := List.mem_map.mp hmem
    have hcell := cellAt_CID (customCols ex)
      ((customCols ex).map (fun col => ex.customLookup c.id col)) t2 c
    have hcid : c.id = i := hcell.symm.trans hid
    have hval : Table.cell
        (Table.mk (hubspotCols ++ customCols ex)
          (newContacts.map (mergedRow ex (customCols ex) t2)))
        (mergedRow ex (customCols ex) t2 c) cc = ex.customLookup c.id cc := by
      show cellAt (hubspotCols ++ customCols ex)
        (contactInfo t2 c ++ (customCols ex).map (fun col => ex.customLookup c.id col))
        cc = _
      exact cellAt_mergedRow_custom (customCols_mem hcc hccnf) hccnf t2 c _
    have hfind : ex.rows.find? (fun row => ex.cell row "Contact ID" == c.id) = some r := by
      refine find?_eq_of_nodup_key (fun row => ex.cell row "Contact ID") ex.rows hids hr ?_
      show ex.cell r "Contact ID" = c.id
      rw [hri, hcid]
    have hlook : ex.customLookup c.id cc = ex.cell r cc := by
      rw [Table.customLookup, hfind]
    exact hval.trans hlook

/-- C1 witness: the spec scenario — `Owner Notes = "VIP"` survives a re-fetch
of identifier 1 with a new email. -/
theorem C1_custom_columns_preserved_witness :
    ∃ out, merge_contact_data [cW] (some exW) "T1" "T2" = some out ∧
      (∃ orow ∈ out.rows, out.cell orow "Contact ID" = "1") ∧
      (∀ orow ∈ out.rows, out.cell orow "Contact ID" = "1" →
        out.cell orow "Owner Notes" = exW.cell ["1", "old@x.com", "VIP"] "Owner Notes") :=
  C1_custom_columns_preserved [cW] exW "T1" "T2" "1" "Owner Notes"
    ["1", "old@x.com", "VIP"] (by decide) (by decide) (by decide) (by decide)
    (by decide) (by decide) (by decide) (by decide) ⟨cW, by decide, rfl⟩

/-- C2 counterexample: the claim quantifies over every fetched record list,
but with an empty fetch the code keeps the existing rows: merging `[]` against
a table containing identifier `"1"` yields a table that still has a row with
identifier `"1"`, although `"1"` is absent from the fetch. -/
theorem C2_counterexample_empty_fetch :
    (∀ c ∈ ([] : List Contact), c.id ≠ "1") ∧
    ("Contact ID" ∈ (Table.mk ["Contact ID"] [["1"]]).cols) ∧
    ((Table.mk ["Contact ID"] [["1"]]).isEmptyDF = false) ∧
    ∃ out, merge_contact_data [] (some (Table.mk ["Contact ID"] [["1"]])) "T1" "T2"
        = some out ∧
      ∃ orow ∈ out.rows, out.cell orow "Contact ID" = "1" := by
  refine ⟨by simp, by decide, rfl, Table.mk ["Contact ID"] [["1"]], by decide, ?_⟩
  exact ⟨["1"], by decide, by decide⟩

/-- C2 amended: for every NON-EMPTY fetched record list and every non-empty
existing table with a `Contact ID` column (well-formed), an identifier present
in the existing table but absent from the fetched records appears in no row of
the merged output (full-replace semantics). -/
theorem C2_full_replace_nonempty_fetch (newContacts : List Contact) (ex : Table)
    (t1 t2 i : String)
    (hne : newContacts ≠ []) (hCID : "Contact ID" ∈ ex.cols)
    (hexne : ex.isEmptyDF = false) (hcols : ex.cols.Nodup) (hids : ex.ids.Nodup)
    (_hinex : ∃ rr ∈ ex.rows, ex.cell rr "Contact ID" = i)
    (hnotnew : ∀ c ∈ newContacts, c.id ≠ i) :
    ∃ out, merge_contact_data newContacts (some ex) t1 t2 = some out ∧
      ∀ orow ∈ out.rows, out.cell orow "Contact ID" ≠ i := by
  refine ⟨_, merge_main newContacts ex t1 t2 hne hCID hexne hcols hids, ?_⟩
  intro orow hmem
  obtain ⟨c, hc, rfl⟩ := List.mem_map.mp hmem
  have hcell := cellAt_CID (customCols ex)
    ((customCols ex).map (fun col => ex.customLookup c.id col)) t2 c
  intro hid
  exact hnotnew c hc (hcell.symm.trans hid)

/-- C2 amended witness: identifier `"2"` from the existing table disappears
when the non-empty fetch no longer contains it. -/
theorem C2_full_replace_nonempty_fetch_witness :
    ∃ out, merge_contact_data [cW]
        (some (Table.mk ["Contact ID", "Owner Notes"] [["1", "VIP"], ["2", "gone"]]))
        "T1" "T2" = some out ∧
      ∀ orow ∈ out.rows, out.cell orow "Contact ID" ≠ "2" :=
  C2_full_replace_nonempty_fetch [cW]
    (Table.mk ["Contact ID", "Owner Notes"] [["1", "VIP"], ["2", "gone"]])
    "T1" "T2" "2" (by decide) (by decide) rfl (by decide) (by decide)
    ⟨["2", "gone"], by decide, by decide⟩ (by decide)

/-- C5: idempotence of the merge up to the timestamp: re-merging the same
fetched record list (with distinct identifiers) against the table an earlier
merge just produced succeeds and yields a table with the same columns whose
rows agree with the earlier output in every column except `Last Updated`. -/
theorem C5_merge_idempotent_except_LU (newContacts : List Contact)
    (existing : Option Table) (t1 t2 t1' t2' : String) (O : Table)
    (hnew : (newContacts.map Contact.id).Nodup)
    (hwf : ∀ t, existing = some t → t.cols.Nodup)
    (h1 : merge_contact_data newContacts existing t1 t2 = some O) :
    ∃ O', merge_contact_data newContacts (some O) t1' t2' = some O' ∧
      O'.cols = O.cols ∧
      List.Forall₂ (fun r r' => ∀ col ∈ O.cols, col ≠ "Last Updated" →
        O.cell r col = O'.cell r' col) O.rows O'.rows := by
  rcases existing with _ | ex
  · have hO : O = newTable t1 newContacts := by
      simp only [merge_contact_data] at h1
      exact (Option.some.inj h1).symm
    exact remerge_of_newTable newContacts t1 t1' t2' hnew O hO
  · by_cases hex : ex.isEmptyDF = true
    · have hO : O = newTable t1 newContacts := by
        simp only [merge_contact_data] at h1
        rw [if_pos hex] at h1
        exact (Option.some.inj h1).symm
      exact remerge_of_newTable newContacts t1 t1' t2' hnew O hO
    · have hexne : ex.isEmptyDF = false := by
        cases hb : ex.isEmptyDF with
        | false => rfl
        | true => exact absurd hb hex
      by_cases hcid : "Contact ID" ∈ ex.cols
      · by_cases hne : newContacts = []
        · subst hne
          have hO : O = ex := by
            rw [merge_empty_fetch ex t1 t2 hexne hcid] at h1
            exact (Option.some.inj h1).symm
          subst hO
          exact ⟨O, merge_empty_fetch O t1' t2' hexne hcid, rfl,
            forall₂_self _ O.rows (fun r _ col _ _ => rfl)⟩
        · have hids : ex.ids.Nodup := by
            by_contra hnd
            simp only [merge_contact_data] at h1
            rw [if_neg (by rw [hexne]; exact Bool.false_ne_true)] at h1
            rw [if_neg (not_not_intro hcid)] at h1
            rw [if_neg (by
              rw [newTable_rows_isEmpty_false t1 hne]
              exact Bool.false_ne_true)] at h1
            rw [if_neg hnd] at h1
            exact Option.noConfusion h1
          have hm := merge_main newContacts ex t1 t2 hne hcid hexne (hwf ex rfl) hids
          rw [hm] at h1
          have hO : O = Table.mk (hubspotCols ++ customCols ex)
              (newContacts.map (mergedRow ex (customCols ex) t2)) :=
            (Option.some.inj h1).symm
          subst hO
          have hcnf : ∀ col ∈ customCols ex, col ∉ hubspotCols :=
            fun col hc => customCols_not_mem hc
          have hms := merge_self_shape newContacts (customCols ex)
            (fun c => (customCols ex).map (fun col => ex.customLookup c.id col))
            t2 t1' t2' hne hnew (customCols_nodup (hwf ex rfl)) hcnf
            (fun c => List.length_map _ _)
          refine ⟨Table.mk (hubspotCols ++ customCols ex)
              (newContacts.map (fun c => contactInfo t2' c
                ++ (customCols ex).map (fun col => ex.customLookup c.id col))),
            hms, rfl, ?_⟩
          apply forall₂_map_map
          intro c _ col hcol hlu
          exact agree_rows_except_LU (customCols ex) hcnf t2 t2' c
            ((customCols ex).map (fun col => ex.customLookup c.id col)) col hcol hlu
      · have hO : O = newTable t1 newContacts := by
          simp only [merge_contact_data] at h1
          rw [if_neg (by rw [hexne]; exact Bool.false_ne_true)] at h1
          rw [if_pos hcid] at h1
          exact (Option.some.inj h1).symm
        exact remerge_of_newTable newContacts t1 t1' t2' hnew O hO

/-- C5 witness: re-merging the sample fetch against its own merge output keeps
every cell except the `Last Updated` stamp. -/
theorem C5_merge_idempotent_except_LU_witness :
    ∃ O', merge_contact_data [cW] (some mergedW) "T1b" "T2b" = some O' ∧
      O'.cols = mergedW.cols ∧
      List.Forall₂ (fun r r' => ∀ col ∈ mergedW.cols, col ≠ "Last Updated" →
        mergedW.cell r col = O'.cell r' col) mergedW.rows O'.rows :=
  C5_merge_idempotent_except_LU [cW] (some exW) "T1" "T2" "T1b" "T2b" mergedW
    (by decide) (fun t ht => (Option.some.inj ht) ▸ (by decide : exW.cols.Nodup))
    (by decide)

end HubSpot
